/-
  A verification development for the tinychain collection engine.

  The definitions below are shallow embeddings of the Rust source:
  - `src/src/collection/table/view.rs` (table query-algebra views)
  - `src/src/collection/table/bounds.rs` (table bounds)
  - `src/src/collection/btree/mod.rs` (BTree routing)
  - `src/host/src/route/collection/tensor.rs` (tensor route handlers)
  - `src/host/src/cluster.rs` (cluster instantiation)

  Machine integers are modelled as `Nat`/`Int`; fallible Rust functions
  returning `TCResult<T>` are modelled as `Except TCError T`.
-/
import Mathlib

/-! # Definitions -/

/-! ## Error model

Mirrors `error::TCError`: an error kind plus a message.  The constructor
helpers mirror `error::bad_request`, `error::not_found`, `error::unsupported`,
`error::not_implemented`, `error::internal`.  Messages are kept as short
constant strings; the Rust code interpolates extra context into them, which
no claim depends on. -/

inductive ErrKind where
  | badRequest
  | notFound
  | unsupported
  | notImplemented
  | internal
  deriving DecidableEq, Repr

structure TCError where
  kind : ErrKind
  msg : String
  deriving DecidableEq, Repr

def TCError.bad_request (m : String) : TCError := ⟨ErrKind.badRequest, m⟩

def TCError.not_found (m : String) : TCError := ⟨ErrKind.notFound, m⟩

def TCError.unsupported (m : String) : TCError := ⟨ErrKind.unsupported, m⟩

def TCError.not_implemented (m : String) : TCError := ⟨ErrKind.notImplemented, m⟩

def TCError.internal (m : String) : TCError := ⟨ErrKind.internal, m⟩

/-! ## Values, keys and rows

`Value` models `crate::value::Value` restricted to the variants the claims
exercise: `Value::None` and numbers.  A BTree `Key` and a table row are both
`Vec<Value>` in the source. -/

inductive Value where
  | vNone
  | number (n : Int)
  deriving DecidableEq, Repr

abbrev Key := List Value

abbrev Row := List Value

/-- Modelled from the spec: the collator's total order on values, restricted
to the embedded variants (`None` sorts first, numbers by integer order).
The `Collator` itself lives in `src/collection/btree/collator.rs`, which is
not among the exposed sources. -/
def valueLe : Value → Value → Bool
  | Value.vNone, _ => true
  | Value.number _, Value.vNone => false
  | Value.number a, Value.number b => a ≤ b

/-! ## Tensor route helpers (`src/host/src/route/collection/tensor.rs`) -/

/-- Embeds `cast_bound(dim: u64, bound: Value) -> TCResult<u64>`:
reject when `|bound| > dim`, map a negative bound `b` to `dim - |b|`,
and a non-negative bound to itself. -/
def cast_bound (dim : Nat) (bound : Int) : Except TCError Nat :=
  if bound.natAbs > dim then
    Except.error (TCError.bad_request "Index out of bounds for dimension")
  else if bound < 0 then
    Except.ok (dim - bound.natAbs)
  else
    Except.ok bound.toNat

/-! ## Table bounds (`src/src/collection/table/bounds.rs`)

`Bound` models `scalar::Bound` (`Unbounded` / `In` / `Ex`), shared with the
BTree range representation.  `Bounds` models the table-level
`HashMap<Id, ColumnBound>` as an association list. -/

inductive Bound where
  | un
  | inc (v : Value)
  | exc (v : Value)
  deriving DecidableEq, Repr

inductive ColumnBound where
  | isValue (v : Value)
  | inRange (start : Bound) (stop : Bound)
  deriving DecidableEq, Repr

structure Bounds where
  inner : List (String × ColumnBound)
  deriving DecidableEq, Repr

/-- Modelled from the spec: the `Collator` (total ordering over typed values,
`src/collection/btree/collator.rs`, not among the exposed sources) appears
here only as an opaque comparison function, since `Bounds::merge` ignores it. -/
def Collator := Value → Value → Ordering

/-- Embeds `Bounds::merge`, which unconditionally returns a NotImplemented
error. -/
def Bounds.merge (_self : Bounds) (_other : Bounds) (_collator : Collator) :
    Except TCError Bounds :=
  Except.error (TCError.not_implemented "Bounds::merge")

/-! ## Table query-algebra views (`src/src/collection/table/view.rs`) -/

/-- The error messages declared at the top of `view.rs`. -/
def ERR_AGGREGATE_SLICE : String :=
  "Table aggregate does not support slicing. Consider aggregating a slice of the source table."

def ERR_AGGREGATE_NESTED : String :=
  "It doesn't make sense to aggregate an aggregate table view. Consider aggregating the source table directly."

def ERR_LIMITED_ORDER : String :=
  "Cannot order a limited selection. Consider ordering the source or indexing the selection."

def ERR_LIMITED_REVERSE : String :=
  "Cannot reverse a limited selection. Consider reversing a slice before limiting"

/-- A column of an index schema.  `dtype` is carried along as in the source
but never inspected by the embedded operations. -/
structure Column where
  name : String
  dtype : String
  deriving DecidableEq, Repr

/-- The `Table` enum (its full definition lives in `table/mod.rs`, outside the
exposed sources); the views embedded here only carry it opaquely as a source,
so a descriptor of the source's columns plus the view constructors suffices. -/
inductive Table where
  | base (columns : List Column)
  | aggregate (source : Table) (columns : List String)
  | limited (source : Table) (limit : Nat)
  deriving DecidableEq, Repr

/-- Embeds `Aggregate::group_by`, which unconditionally fails.  The
`Aggregate` struct's fields (`source: Box<Table>`, `columns: Vec<ValueId>`)
are passed explicitly. -/
def Aggregate.group_by (_source : Table) (_selfColumns : List String)
    (_columns : List String) : Except TCError Table :=
  Except.error (TCError.unsupported ERR_AGGREGATE_NESTED)

/-- Embeds `Aggregate::validate_bounds`, which unconditionally fails. -/
def Aggregate.validate_bounds (_source : Table) (_selfColumns : List String)
    (_bounds : Bounds) : Except TCError Unit :=
  Except.error (TCError.unsupported ERR_AGGREGATE_SLICE)

/-- Embeds `Limited::order_by`, which unconditionally fails.  The `Limited`
struct's fields (`source: Box<Table>`, `limit: usize`) are passed explicitly. -/
def Limited.order_by (_source : Table) (_limit : Nat) (_order : List String)
    (_reverse : Bool) : Except TCError Table :=
  Except.error (TCError.unsupported ERR_LIMITED_ORDER)

/-- Embeds `Limited::reversed`, which unconditionally fails. -/
def Limited.reversed (_source : Table) (_limit : Nat) : Except TCError Table :=
  Except.error (TCError.unsupported ERR_LIMITED_REVERSE)

/-- Embeds the row transformation of `Aggregate::stream`: take the first row
of the source stream (empty source gives an empty stream); chain it in front
of a fresh copy of the source stream as `left`, zip with a second fresh copy
as `right`, and keep `r` from each pair `(l, r)` with `l ≠ r`. -/
def Aggregate.stream (source : List Row) : List Row :=
  match source with
  | [] => []
  | first :: _ =>
    let left := first :: source
    let right := source
    (left.zip right).filterMap fun p => if p.1 = p.2 then none else some p.2

/-- Embeds the lookup loop of `ColumnSelection::try_from`: for each selected
name (with its enumeration index `i`), look the column up in the source
schema (`error::not_found` when absent), push the column onto the selected
schema and push `i` onto `indices`.  Note the source pushes the enumeration
index `i`, not the column's position in the source schema. -/
def ColumnSelection.lookup (sourceColumns : List Column) :
    List String → Nat → Except TCError (List Column × List Nat)
  | [], _ => Except.ok ([], [])
  | name :: rest, i =>
    match sourceColumns.find? (fun c => c.name = name) with
    | none => Except.error (TCError.not_found name)
    | some col =>
      match ColumnSelection.lookup sourceColumns rest (i + 1) with
      | Except.error e => Except.error e
      | Except.ok (schema, indices) => Except.ok (col :: schema, i :: indices)

/-- Embeds `ColumnSelection::try_from((source, columns))`: reject a selection
containing a duplicate column name, then resolve each name against the
source's schema (`source.key() ++ source.values()`), producing the selected
schema and the `indices` used by `ColumnSelection::stream`. -/
def ColumnSelection.try_from (sourceColumns : List Column)
    (columns : List String) : Except TCError (List Column × List Nat) :=
  if columns.Nodup then
    ColumnSelection.lookup sourceColumns columns 0
  else
    Except.error (TCError.bad_request "Tried to select duplicate column")

/-- Embeds the row transformation of `ColumnSelection::stream`: each source
row maps to the vector of its values at `indices`. -/
def ColumnSelection.stream (indices : List Nat) (rows : List Row) : List Row :=
  rows.map fun row => indices.map fun i => row.getD i Value.vNone

/-! ## BTree ranges and index slices -/

/-- Models `BTreeRange` (`btree/bounds.rs`, not among the exposed sources):
a pair of per-column bound vectors.  `BTreeRange::default()` is the pair of
empty vectors, selecting everything. -/
structure BTreeRange where
  start : List Bound
  stop : List Bound
  deriving DecidableEq, Repr

def BTreeRange.default : BTreeRange := ⟨[], []⟩

/-- Models `IndexSchema` (`collection/schema.rs`, not among the exposed
sources): key columns plus value columns. -/
structure IndexSchema where
  key : List Column
  values : List Column
  deriving DecidableEq, Repr

def IndexSchema.columns (s : IndexSchema) : List Column := s.key ++ s.values

/-- Modelled from the spec: `IndexSchema::starts_with` (in
`collection/schema.rs`, not among the exposed sources) holds when the
schema's column list starts with the given column names — "Requires an index
whose schema starts with `columns`". -/
def IndexSchema.starts_with (s : IndexSchema) (order : List String) : Bool :=
  order.isPrefixOf (s.columns.map Column.name)

/-- Models the `IndexSlice` struct of `view.rs`; the `source: Arc<BTreeFile>`
storage handle is omitted, the descriptor fields are kept. -/
structure IndexSlice where
  schema : IndexSchema
  bounds : Bounds
  range : BTreeRange
  reverse : Bool
  deriving DecidableEq, Repr

/-- Embeds `IndexSlice::into_reversed`: flip the `reverse` flag. -/
def IndexSlice.into_reversed (s : IndexSlice) : IndexSlice :=
  { s with reverse := !s.reverse }

/-- Embeds `IndexSlice::order_by`: when the schema starts with `order`,
return the reversal (for `reverse = true`, via `reversed()`) or the slice
itself; otherwise fail with `error::bad_request`. -/
def IndexSlice.order_by (s : IndexSlice) (order : List String)
    (reverse : Bool) : Except TCError IndexSlice :=
  if s.schema.starts_with order then
    if reverse then Except.ok s.into_reversed else Except.ok s
  else
    Except.error (TCError.bad_request "Index with schema does not support order")

/-- Embeds `IndexSlice::validate_order`: accept exactly when the schema
starts with `order`, otherwise `error::bad_request`. -/
def IndexSlice.validate_order (s : IndexSlice) (order : List String) :
    Except TCError Unit :=
  if s.schema.starts_with order then
    Except.ok ()
  else
    Except.error (TCError.bad_request "Index with schema does not support order")

/-- A concrete index slice over schema `(age, user_id)`, as in the spec's
scenario S2. -/
def exampleAgeSlice : IndexSlice :=
  { schema := ⟨[⟨"age", "u32"⟩, ⟨"user_id", "u64"⟩], []⟩
    bounds := ⟨[]⟩
    range := BTreeRange.default
    reverse := false }

/-! ## Cluster instantiation (`src/host/src/cluster.rs`) -/

/-- Models `OpRef` restricted to the shape `Cluster::instantiate` inspects:
`OpRef::Get((path, schema))` versus any other operation reference. -/
inductive OpRef where
  | get (path : List String) (schema : Value)
  | otherOp (desc : String)
  deriving DecidableEq, Repr

/-- Models `TCRef`: an op reference or any other reference kind. -/
inductive TCRef where
  | op (o : OpRef)
  | otherRef (desc : String)
  deriving DecidableEq, Repr

/-- Models `Scalar` restricted to the shapes `Cluster::instantiate` inspects:
`Scalar::Ref`, `Scalar::Op` (an operation definition, kept opaque), and every
other scalar kind. -/
inductive ProtoMember where
  | ref (r : TCRef)
  | op (opDef : String)
  | other (desc : String)
  deriving DecidableEq, Repr

inductive ChainType where
  | sync
  deriving DecidableEq, Repr

/-- Modelled from the spec: `ChainType::from_path` (in the host's chain
module, not among the exposed sources) recognizes exactly the paths naming a
chain type; the spec lists the *sync* variant. -/
def ChainType.from_path (path : List String) : Option ChainType :=
  if path = ["state", "chain", "sync"] then some ChainType.sync else none

/-- The classification a proto member receives in `Cluster::instantiate`:
chain members go into `chain_schema`, op definitions into `cluster_proto`. -/
inductive MemberSort where
  | chain (ct : ChainType) (schema : Value)
  | opDef (opDef : String)
  deriving DecidableEq, Repr

/-- Embeds the proto-member classification loop of `Cluster::instantiate`:
a `Get`-op reference whose path names a chain type becomes a chain member;
a `Get`-op reference with any other path is rejected ("Cluster requires its
mutable data to be wrapped in a chain"); any other reference is rejected
("expected a Chain"); an op definition is accepted; any other member kind is
rejected ("Cluster member must be a Chain ... or an immutable OpDef"). -/
def Cluster.instantiate_member : ProtoMember → Except TCError MemberSort
  | ProtoMember.ref (TCRef.op (OpRef.get path schema)) =>
    match ChainType.from_path path with
    | some ct => Except.ok (MemberSort.chain ct schema)
    | none =>
      Except.error
        (TCError.bad_request "Cluster requires its mutable data to be wrapped in a chain, not")
  | ProtoMember.ref _ => Except.error (TCError.bad_request "expected a Chain but found")
  | ProtoMember.op opDef => Except.ok (MemberSort.opDef opDef)
  | ProtoMember.other _ =>
    Except.error
      (TCError.bad_request "Cluster member must be a Chain (for mutable data), or an immutable OpDef, not")

/-- A proto member is a `Get`-op reference whose path names a chain type. -/
def ProtoMember.is_chain_get : ProtoMember → Bool
  | ProtoMember.ref (TCRef.op (OpRef.get path _)) => (ChainType.from_path path).isSome
  | _ => false

/-- A proto member is an operation definition. -/
def ProtoMember.is_op_def : ProtoMember → Bool
  | ProtoMember.op _ => true
  | _ => false

/-! ## Tensor concatenation (`src/host/src/route/collection/tensor.rs`) -/

/-- Modelled from the spec: `NumberType` (in the `tc_value` crate, not among
the exposed sources) with its type lattice — "bool < int < uint < float <
complex, widening within each rung". -/
inductive NumberType where
  | bool
  | int (bits : Nat)
  | uint (bits : Nat)
  | float (bits : Nat)
  | complex (bits : Nat)
  deriving DecidableEq, Repr

/-- The rung of a number type in the lattice. -/
def NumberType.rung : NumberType → Nat
  | NumberType.bool => 0
  | NumberType.int _ => 1
  | NumberType.uint _ => 2
  | NumberType.float _ => 3
  | NumberType.complex _ => 4

/-- The width of a number type within its rung. -/
def NumberType.width : NumberType → Nat
  | NumberType.bool => 1
  | NumberType.int b => b
  | NumberType.uint b => b
  | NumberType.float b => b
  | NumberType.complex b => b

/-- The lattice order on number types: by rung, then by width. -/
def NumberType.le (a b : NumberType) : Bool :=
  decide (a.rung < b.rung) ||
    (decide (a.rung = b.rung) && decide (a.width ≤ b.width))

/-- `Ord::max` on number types: returns the second argument when the first
is less than or equal to it. -/
def NumberType.max (a b : NumberType) : NumberType :=
  if a.le b then b else a

/-- The schema of a tensor as the concatenate handler observes it: its shape
(`TensorAccess::shape`) and dtype (`TensorAccess::dtype`). -/
structure TensorDesc where
  shape : List Nat
  dtype : NumberType
  deriving DecidableEq, Repr

/-- Embeds `cast_axis(axis: Value, ndim: usize)`: a `None` axis maps to
`ndim`; an axis `≥ ndim` is rejected with an Unsupported error; a
non-negative axis passes through; a negative axis maps to `ndim - |axis|`
(the Rust `usize` subtraction would panic on underflow, modelled as an
internal error). -/
def cast_axis (axis : Option Int) (ndim : Nat) : Except TCError Nat :=
  match axis with
  | none => Except.ok ndim
  | some a =>
    if a ≥ (ndim : Int) then
      Except.error (TCError.unsupported "axis is out of bounds for Tensor")
    else if a ≥ 0 then
      Except.ok a.toNat
    else if a.natAbs ≤ ndim then
      Except.ok (ndim - a.natAbs)
    else
      Except.error (TCError.internal "attempt to subtract with overflow")

/-- The dtype fold of `ConcatenateHandler::post`:
`tensors.iter().map(dtype).fold(init, Ord::max)`. -/
def concat_dtype (tensors : List TensorDesc) (init : NumberType) : NumberType :=
  tensors.foldl (fun acc t => NumberType.max acc t.dtype) init

/-- Embeds the schema effect of `ConcatenateHandler::concatenate`: a blank
dense tensor of shape `[tensors.len()] ++ shape_in` and the given dtype is
created and each input written into one slice of it; the writes do not alter
the result's schema. -/
def ConcatenateHandler.concatenate (shape_in : List Nat) (dtype : NumberType)
    (tensors : List TensorDesc) : TensorDesc :=
  ⟨tensors.length :: shape_in, dtype⟩

/-- Embeds the schema effect of `ConcatenateHandler::concatenate_axis`: the
output shape is `shape_in` with the concatenation axis scaled by the number
of inputs (`shape_out[axis] = shape_in[axis] * tensors.len()`). -/
def ConcatenateHandler.concatenate_axis (shape_in : List Nat) (axis : Nat)
    (dtype : NumberType) (tensors : List TensorDesc) : TensorDesc :=
  ⟨shape_in.set axis (shape_in.getD axis 0 * tensors.length), dtype⟩

/-- Embeds `ConcatenateHandler::post`: reject an empty tensor list; reject
any input whose shape differs from the first input's shape; compute the
output dtype as the fold of `Ord::max` over the input dtypes; then dispatch
on whether `axis` is present. -/
def ConcatenateHandler.post (tensors : List TensorDesc) (axis : Option Int) :
    Except TCError TensorDesc :=
  match tensors with
  | [] => Except.error (TCError.unsupported "need at least one Tensor to concatenate")
  | t0 :: _ =>
    if tensors.all fun t => t.shape == t0.shape then
      let dtype := concat_dtype tensors t0.dtype
      match axis with
      | none => Except.ok (ConcatenateHandler.concatenate t0.shape dtype tensors)
      | some a =>
        match cast_axis (some a) t0.shape.length with
        | Except.error e => Except.error e
        | Except.ok ax =>
          Except.ok (ConcatenateHandler.concatenate_axis t0.shape ax dtype tensors)
    else
      Except.error (TCError.unsupported "can only concatenate Tensors with the same shape")

/-! ## BTree routing (`src/src/collection/btree/mod.rs`)

The `BTreeRange` operations (`btree/bounds.rs`) and the `BTreeFile` stream
(`btree/file.rs`) are not among the exposed sources; they are modelled from
the spec as noted on each definition.  The `route` dispatch itself is
embedded from `btree/mod.rs`. -/

/-- Extracts the vector of values of a bound list made of `Inclusive` bounds
only; `none` when any bound is `Unbounded` or `Exclusive`. -/
def incValues : List Bound → Option (List Value)
  | [] => some []
  | Bound.inc v :: rest => (incValues rest).map (v :: ·)
  | Bound.exc _ :: _ => none
  | Bound.un :: _ => none

/-- Modelled from the spec: "A range `r` equals a *key* iff both bounds are
`Inclusive(same vector)` of full length" (`BTreeRange::is_key`, in
`btree/bounds.rs`). -/
def BTreeRange.is_key (r : BTreeRange) (schemaLen : Nat) : Bool :=
  match incValues r.start, incValues r.stop with
  | some a, some b => a == b && a.length == schemaLen
  | _, _ => false

/-- A key component satisfies a lower bound: unbounded always, inclusive by
`valueLe`, exclusive strictly. -/
def satLower : Bound → Value → Bool
  | Bound.un, _ => true
  | Bound.inc b, v => valueLe b v
  | Bound.exc b, v => valueLe b v && !(v == b)

/-- A key component satisfies an upper bound: unbounded always, inclusive by
`valueLe`, exclusive strictly. -/
def satUpper : Bound → Value → Bool
  | Bound.un, _ => true
  | Bound.inc b, v => valueLe v b
  | Bound.exc b, v => valueLe v b && !(v == b)

/-- Each of the first `bounds.length` key components satisfies its
per-column bound; a key shorter than the bound vector matches nothing. -/
def boundsMatch (sat : Bound → Value → Bool) : List Bound → List Value → Bool
  | [], _ => true
  | _ :: _, [] => false
  | b :: bs, v :: vs => sat b v && boundsMatch sat bs vs

/-- Modelled from the spec: "A `k`-bounded range selects every key whose
first `k` components fall between the two bounds under the collator". -/
def BTreeRange.contains_key (r : BTreeRange) (k : Key) : Bool :=
  boundsMatch satLower r.start k && boundsMatch satUpper r.stop k

/-- Modelled from the spec: `BTreeFile::stream(txn_id, range, false)`
(`btree/file.rs`, not among the exposed sources) lazily yields the stored
keys falling in the range, in order.  The tree's committed contents are the
ordered key list `keys`. -/
def BTreeFile.stream (keys : List Key) (r : BTreeRange) : List Key :=
  keys.filter r.contains_key

/-- The `State` a BTree GET can return: the collection itself, a single key
as a scalar value, or a `BTreeSlice` view descriptor.  (`BTreeSlice::new` is
in `btree/slice.rs`, not among the exposed sources; modelled from the spec
as a view narrowing the visible range, always constructible for a validated
range.) -/
inductive BTreeState where
  | collection
  | scalar (k : Key)
  | sliceView (r : BTreeRange) (reverse : Bool)
  deriving DecidableEq, Repr

/-- Embeds the empty-path branch of `route` in `btree/mod.rs`: a default
range returns the collection itself; a range that `is_key` streams the range
and returns the first key as a scalar (NotFound when the stream is empty);
any other range returns a slice view. -/
def BTree.route_get (keys : List Key) (schemaLen : Nat) (r : BTreeRange) :
    Except TCError BTreeState :=
  if r = BTreeRange.default then
    Except.ok BTreeState.collection
  else if r.is_key schemaLen then
    match (BTreeFile.stream keys r).head? with
    | some k => Except.ok (BTreeState.scalar k)
    | none => Except.error (TCError.not_found "(btree key)")
  else
    Except.ok (BTreeState.sliceView r false)

/-! # Theorems -/

/-! ## Lattice-order helper lemmas -/

theorem numberTypeLe_refl (a : NumberType) : a.le a = true := by
  simp [NumberType.le]

theorem numberTypeLe_trans {a b c : NumberType} (hab : a.le b = true)
    (hbc : b.le c = true) : a.le c = true := by
  simp only [NumberType.le, Bool.or_eq_true, Bool.and_eq_true,
    decide_eq_true_eq] at hab hbc ⊢
  omega

theorem numberTypeLe_total (a b : NumberType) :
    a.le b = true ∨ b.le a = true := by
  simp only [NumberType.le, Bool.or_eq_true, Bool.and_eq_true,
    decide_eq_true_eq]
  omega

theorem numberTypeMax_choice (a b : NumberType) :
    NumberType.max a b = a ∨ NumberType.max a b = b := by
  unfold NumberType.max
  split
  · right; rfl
  · left; rfl

theorem le_numberTypeMax_left (a b : NumberType) :
    a.le (NumberType.max a b) = true := by
  unfold NumberType.max
  split
  · assumption
  · exact numberTypeLe_refl a

theorem le_numberTypeMax_right (a b : NumberType) :
    b.le (NumberType.max a b) = true := by
  unfold NumberType.max
  split
  · exact numberTypeLe_refl b
  · rcases numberTypeLe_total a b with h | h
    · simp_all
    · exact h

theorem concat_dtype_mem (l : List TensorDesc) (init : NumberType) :
    concat_dtype l init = init ∨
      concat_dtype l init ∈ l.map TensorDesc.dtype := by
  induction l generalizing init with
  | nil => left; rfl
  | cons t tl ih =>
    simp only [concat_dtype, List.foldl_cons, List.map_cons, List.mem_cons]
    rcases ih (NumberType.max init t.dtype) with h | h
    · rcases numberTypeMax_choice init t.dtype with h2 | h2
      · left
        rw [concat_dtype] at h
        rw [h, h2]
      · right; left
        rw [concat_dtype] at h
        rw [h, h2]
    · right; right
      rw [concat_dtype] at h
      exact h

theorem le_concat_dtype (l : List TensorDesc) (init : NumberType) :
    init.le (concat_dtype l init) = true := by
  induction l generalizing init with
  | nil => exact numberTypeLe_refl init
  | cons t tl ih =>
    simp only [concat_dtype, List.foldl_cons]
    exact numberTypeLe_trans (le_numberTypeMax_left init t.dtype)
      (ih (NumberType.max init t.dtype))

theorem mem_le_concat_dtype (l : List TensorDesc) (init : NumberType) :
    ∀ t ∈ l, t.dtype.le (concat_dtype l init) = true := by
  induction l generalizing init with
  | nil => intro t ht; cases ht
  | cons hd tl ih =>
    intro t ht
    rcases List.mem_cons.mp ht with h | h
    · subst h
      simp only [concat_dtype, List.foldl_cons]
      exact numberTypeLe_trans (le_numberTypeMax_right init t.dtype)
        (le_concat_dtype tl (NumberType.max init t.dtype))
    · simp only [concat_dtype, List.foldl_cons]
      exact ih (NumberType.max init hd.dtype) t h

/-! ## Claim C7 -/

/-- C7: casting an axis bound wraps a negative `b` with `|b| ≤ dim` to
`dim - |b|`, passes a non-negative `b ≤ dim` through unchanged, and rejects
any `b` with `|b| > dim` with a BadRequest error. -/
theorem c7_cast_bound_semantics (dim : Nat) (b : Int) :
    (b < 0 → b.natAbs ≤ dim → cast_bound dim b = Except.ok (dim - b.natAbs)) ∧
    (0 ≤ b → b.natAbs ≤ dim → cast_bound dim b = Except.ok b.toNat) ∧
    (b.natAbs > dim →
      cast_bound dim b =
        Except.error (TCError.bad_request "Index out of bounds for dimension")) := by
  refine ⟨?_, ?_, ?_⟩
  · intro hneg hle
    unfold cast_bound
    rw [if_neg (by omega), if_pos hneg]
  · intro hpos hle
    unfold cast_bound
    rw [if_neg (by omega), if_neg (by omega)]
  · intro hgt
    unfold cast_bound
    rw [if_pos hgt]

theorem c7_cast_bound_semantics_witness :
    ((-2 : Int) < 0 ∧ (-2 : Int).natAbs ≤ 5 ∧
      cast_bound 5 (-2) = Except.ok 3) ∧
    ((0 : Int) ≤ 4 ∧ (4 : Int).natAbs ≤ 5 ∧ cast_bound 5 4 = Except.ok 4) ∧
    ((7 : Int).natAbs > 5 ∧
      cast_bound 5 7 =
        Except.error (TCError.bad_request "Index out of bounds for dimension")) :=
  ⟨⟨by decide, by decide,
      (c7_cast_bound_semantics 5 (-2)).1 (by decide) (by decide)⟩,
    ⟨by decide, by decide,
      (c7_cast_bound_semantics 5 4).2.1 (by decide) (by decide)⟩,
    ⟨by decide, (c7_cast_bound_semantics 5 7).2.2 (by decide)⟩⟩

/-! ## Claim C10 -/

/-- C10: the bound equal to `dim` itself is accepted and returned unchanged,
an index one past the last valid position, because only bounds with
`|b| > dim` are rejected. -/
theorem c10_cast_bound_accepts_dim (dim : Nat) :
    cast_bound dim (dim : Int) = Except.ok dim := by
  unfold cast_bound
  rw [if_neg (by simp), if_neg (by omega)]
  simp

/-! ## Claim C9 -/

/-- C9: `Bounds::merge` returns a NotImplemented error for every pair of
bounds and every collator. -/
theorem c9_bounds_merge_not_implemented (b1 b2 : Bounds) (c : Collator) :
    Bounds.merge b1 b2 c =
      Except.error (TCError.not_implemented "Bounds::merge") :=
  rfl

/-! ## Claim C5 -/

/-- C5: on an aggregate view, `validate_bounds` and `group_by` fail with an
Unsupported error for all arguments; on a limited view, `order_by` and
`reversed` fail with an Unsupported error for all arguments. -/
theorem c5_algebraic_restrictions (src : Table) (selfCols : List String)
    (limit : Nat) (cols : List String) (bounds : Bounds) (order : List String)
    (reverse : Bool) :
    Aggregate.validate_bounds src selfCols bounds =
      Except.error (TCError.unsupported ERR_AGGREGATE_SLICE) ∧
    Aggregate.group_by src selfCols cols =
      Except.error (TCError.unsupported ERR_AGGREGATE_NESTED) ∧
    Limited.order_by src limit order reverse =
      Except.error (TCError.unsupported ERR_LIMITED_ORDER) ∧
    Limited.reversed src limit =
      Except.error (TCError.unsupported ERR_LIMITED_REVERSE) :=
  ⟨rfl, rfl, rfl, rfl⟩

/-! ## Claim C1 -/

/-- C1 (failing input): streaming the aggregate of the two-row source
`[[1], [2]]` yields only `[[2]]` — the zipped pair `(first, first)` compares
equal and is filtered out, so the first row of the source never reaches the
aggregate's output, contradicting adjacent-duplicate removal (which would
yield `[[1], [2]]`). -/
theorem c1_aggregate_drops_first_row :
    Aggregate.stream [[Value.number 1], [Value.number 2]] =
      [[Value.number 2]] := by
  decide

/-! ## Claim C2 -/

/-- C2 (failing input): over the source schema `[a, b]` with the single row
`[10, 20]`, selecting `[b]` resolves (the name exists, no duplicates) to
`indices = [0]` — the enumeration index, not column `b`'s position `1` — so
the streamed output row is `[10]`, the value of column `a`, where the claim
requires `[20]`, the value of the column named by the selected name.  A
duplicate selection `[b, b]` is rejected as the claim states. -/
theorem c2_select_uses_enumeration_index :
    ColumnSelection.try_from [⟨"a", "u64"⟩, ⟨"b", "u64"⟩] ["b"] =
      Except.ok ([⟨"b", "u64"⟩], [0]) ∧
    ColumnSelection.stream [0] [[Value.number 10, Value.number 20]] =
      [[Value.number 10]] ∧
    ColumnSelection.try_from [⟨"a", "u64"⟩, ⟨"b", "u64"⟩] ["b", "b"] =
      Except.error (TCError.bad_request "Tried to select duplicate column") :=
  ⟨rfl, rfl, rfl⟩

/-! ## Claim C4 -/

/-- C4 counterexample: ordering the `(age, user_id)` index slice by `height`
(a column list its schema does not start with) fails with a BadRequest
error, not the Unsupported error the claim states. -/
theorem c4_counterexample_order_by_error_kind :
    IndexSlice.order_by exampleAgeSlice ["height"] false =
      Except.error ⟨ErrKind.badRequest, "Index with schema does not support order"⟩ ∧
    ErrKind.badRequest ≠ ErrKind.unsupported :=
  ⟨rfl, by decide⟩

/-- C4 (amended): `order_by` with a column list the index's schema does not
start with fails with a BadRequest error (as does `validate_order`); when the
schema does start with the columns, `order_by` succeeds, returning the slice
itself or its reversal according to the `reverse` flag (and `validate_order`
accepts). -/
theorem c4_index_slice_order_by (s : IndexSlice) (order : List String)
    (reverse : Bool) :
    (s.schema.starts_with order = false →
      IndexSlice.order_by s order reverse =
        Except.error (TCError.bad_request "Index with schema does not support order") ∧
      IndexSlice.validate_order s order =
        Except.error (TCError.bad_request "Index with schema does not support order")) ∧
    (s.schema.starts_with order = true →
      IndexSlice.order_by s order reverse =
        Except.ok (if reverse then s.into_reversed else s) ∧
      IndexSlice.validate_order s order = Except.ok ()) := by
  constructor
  · intro h
    constructor
    · unfold IndexSlice.order_by
      rw [h]
      simp
    · unfold IndexSlice.validate_order
      rw [h]
      simp
  · intro h
    constructor
    · unfold IndexSlice.order_by
      rw [h]
      cases reverse <;> simp
    · unfold IndexSlice.validate_order
      rw [h]
      simp

theorem c4_index_slice_order_by_witness :
    (exampleAgeSlice.schema.starts_with ["height"] = false ∧
      IndexSlice.order_by exampleAgeSlice ["height"] false =
        Except.error (TCError.bad_request "Index with schema does not support order")) ∧
    (exampleAgeSlice.schema.starts_with ["age"] = true ∧
      IndexSlice.order_by exampleAgeSlice ["age"] true =
        Except.ok exampleAgeSlice.into_reversed) :=
  ⟨⟨by decide,
      ((c4_index_slice_order_by exampleAgeSlice ["height"] false).1 (by decide)).1⟩,
    ⟨by decide,
      ((c4_index_slice_order_by exampleAgeSlice ["age"] true).2 (by decide)).1⟩⟩

/-! ## Claim C8 -/

/-- C8: `Cluster::instantiate` accepts a proto member exactly when it is a
`Get`-op reference whose path names a chain type or an operation definition,
and every rejected member — including a `Get` reference whose path does not
name a chain type — fails with a BadRequest error. -/
theorem c8_cluster_member_classification (m : ProtoMember) :
    ((Cluster.instantiate_member m).isOk =
      (m.is_chain_get || m.is_op_def)) ∧
    (∀ e, Cluster.instantiate_member m = Except.error e →
      e.kind = ErrKind.badRequest) := by
  constructor
  · cases m with
    | ref r =>
      cases r with
      | op o =>
        cases o with
        | get path schema =>
          simp only [Cluster.instantiate_member, ProtoMember.is_chain_get,
            ProtoMember.is_op_def]
          cases h : ChainType.from_path path <;> simp [h, Except.isOk, Except.toBool]
        | otherOp d => rfl
      | otherRef d => rfl
    | op d => rfl
    | other d => rfl
  · intro e he
    cases m with
    | ref r =>
      cases r with
      | op o =>
        cases o with
        | get path schema =>
          simp only [Cluster.instantiate_member] at he
          cases h : ChainType.from_path path with
          | none =>
            rw [h] at he
            cases he
            rfl
          | some ct =>
            rw [h] at he
            cases he
        | otherOp d =>
          cases he
          rfl
      | otherRef d =>
        cases he
        rfl
    | op d => cases he
    | other d =>
      cases he
      rfl

theorem c8_cluster_member_classification_witness :
    (Cluster.instantiate_member
        (ProtoMember.ref (TCRef.op (OpRef.get ["state", "scalar"] Value.vNone))) =
      Except.error
        (TCError.bad_request "Cluster requires its mutable data to be wrapped in a chain, not") ∧
      (TCError.bad_request "Cluster requires its mutable data to be wrapped in a chain, not").kind =
        ErrKind.badRequest) ∧
    (Cluster.instantiate_member
        (ProtoMember.ref (TCRef.op (OpRef.get ["state", "chain", "sync"] Value.vNone)))).isOk =
      true ∧
    (Cluster.instantiate_member (ProtoMember.op "op_def")).isOk = true :=
  ⟨⟨rfl,
      (c8_cluster_member_classification
          (ProtoMember.ref (TCRef.op (OpRef.get ["state", "scalar"] Value.vNone)))).2
        _ rfl⟩,
    rfl, rfl⟩

/-! ## Claim C6 -/

/-- C6 counterexample: two inputs of shapes `[2,3]` and `[3,3]` agree on
every axis other than concatenation axis `0`, yet the handler rejects them —
it requires all input shapes to be equal on every axis. -/
theorem c6_counterexample_unequal_concat_axis :
    ConcatenateHandler.post
        [⟨[2, 3], NumberType.int 32⟩, ⟨[3, 3], NumberType.int 32⟩] (some 0) =
      Except.error
        (TCError.unsupported "can only concatenate Tensors with the same shape") :=
  rfl

/-- C6 (amended): `concatenate(tensors, axis?)` requires all input tensors'
shapes to be equal on every axis (including the concatenation axis),
rejecting any differing input; an empty input list is rejected with an
error; when axis is absent the output shape is the number of inputs followed
by the common input shape; and in every successful case the output dtype is
the maximum of the input dtypes under the type lattice (it is one of the
input dtypes and bounds them all from above). -/
theorem c6_concatenate_post (ts : List TensorDesc) (axis : Option Int) :
    (ts = [] →
      ConcatenateHandler.post ts axis =
        Except.error (TCError.unsupported "need at least one Tensor to concatenate")) ∧
    (∀ t0 tl, ts = t0 :: tl →
      (ts.all fun t => t.shape == t0.shape) = false →
      ConcatenateHandler.post ts axis =
        Except.error (TCError.unsupported "can only concatenate Tensors with the same shape")) ∧
    (∀ out, ConcatenateHandler.post ts axis = Except.ok out →
      out.dtype ∈ ts.map TensorDesc.dtype ∧
        ∀ t ∈ ts, t.dtype.le out.dtype = true) ∧
    (∀ t0 tl out, ts = t0 :: tl → axis = none →
      ConcatenateHandler.post ts axis = Except.ok out →
      out.shape = ts.length :: t0.shape) := by
  refine ⟨?_, ?_, ?_, ?_⟩
  · intro h
    subst h
    rfl
  · intro t0 tl hts hall
    subst hts
    simp [ConcatenateHandler.post, hall]
  · intro out hok
    match hts : ts with
    | [] => simp [ConcatenateHandler.post] at hok
    | t0 :: tl =>
      by_cases hall : ((t0 :: tl).all fun t => t.shape == t0.shape) = true
      · have hdtype : out.dtype = concat_dtype (t0 :: tl) t0.dtype := by
          cases axis with
          | none =>
            simp only [ConcatenateHandler.post, hall, if_true] at hok
            cases hok
            rfl
          | some a =>
            simp only [ConcatenateHandler.post, hall, if_true] at hok
            cases hca : cast_axis (some a) t0.shape.length with
            | error e =>
              rw [hca] at hok
              cases hok
            | ok ax =>
              rw [hca] at hok
              cases hok
              rfl
        constructor
        · rw [hdtype]
          rcases concat_dtype_mem (t0 :: tl) t0.dtype with h | h
          · rw [h]
            simp
          · exact h
        · intro t ht
          rw [hdtype]
          exact mem_le_concat_dtype (t0 :: tl) t0.dtype t ht
      · rw [ConcatenateHandler.post, if_neg hall] at hok
        cases hok
  · intro t0 tl out hts hax hok
    subst hts
    subst hax
    by_cases hall : ((t0 :: tl).all fun t => t.shape == t0.shape) = true
    · simp only [ConcatenateHandler.post, hall, if_true] at hok
      cases hok
      rfl
    · rw [ConcatenateHandler.post, if_neg hall] at hok
      cases hok

theorem c6_concatenate_post_witness :
    (ConcatenateHandler.post
        ([] : List TensorDesc) none =
      Except.error (TCError.unsupported "need at least one Tensor to concatenate")) ∧
    ((⟨[2, 3], NumberType.float 32⟩ : TensorDesc).dtype ∈
        ([⟨[3], NumberType.int 32⟩, ⟨[3], NumberType.float 32⟩] : List TensorDesc).map
          TensorDesc.dtype ∧
      ∀ t ∈ ([⟨[3], NumberType.int 32⟩, ⟨[3], NumberType.float 32⟩] : List TensorDesc),
        t.dtype.le (⟨[2, 3], NumberType.float 32⟩ : TensorDesc).dtype = true) ∧
    (⟨[2, 3], NumberType.float 32⟩ : TensorDesc).shape =
      ([⟨[3], NumberType.int 32⟩, ⟨[3], NumberType.float 32⟩] : List TensorDesc).length ::
        [3] :=
  ⟨(c6_concatenate_post [] none).1 rfl,
    (c6_concatenate_post
          [⟨[3], NumberType.int 32⟩, ⟨[3], NumberType.float 32⟩] none).2.2.1
      ⟨[2, 3], NumberType.float 32⟩ rfl,
    (c6_concatenate_post
          [⟨[3], NumberType.int 32⟩, ⟨[3], NumberType.float 32⟩] none).2.2.2
      ⟨[3], NumberType.int 32⟩ [⟨[3], NumberType.float 32⟩]
      ⟨[2, 3], NumberType.float 32⟩ rfl rfl rfl⟩

/-! ## Collator and range helper lemmas -/

theorem valueLe_refl (a : Value) : valueLe a a = true := by
  cases a <;> simp [valueLe]

theorem valueLe_antisymm {a b : Value} (h1 : valueLe a b = true)
    (h2 : valueLe b a = true) : a = b := by
  cases a with
  | vNone =>
    cases b with
    | vNone => rfl
    | number m => simp [valueLe] at h2
  | number n =>
    cases b with
    | vNone => simp [valueLe] at h1
    | number m =>
      simp only [valueLe, decide_eq_true_eq] at h1 h2
      simp only [Value.number.injEq]
      omega

theorem incValues_map_inc (v : List Value) :
    incValues (v.map Bound.inc) = some v := by
  induction v with
  | nil => rfl
  | cons a tl ih => simp [incValues, ih]

theorem contains_key_inc_iff :
    ∀ (v k : List Value), k.length = v.length →
      (BTreeRange.contains_key ⟨v.map Bound.inc, v.map Bound.inc⟩ k = true ↔
        k = v) := by
  intro v
  induction v with
  | nil =>
    intro k hk
    have hk0 : k = [] := List.eq_nil_of_length_eq_zero (by simpa using hk)
    subst hk0
    simp [BTreeRange.contains_key, boundsMatch]
  | cons a v' ih =>
    intro k hk
    cases k with
    | nil => simp at hk
    | cons b k' =>
      simp only [List.length_cons, Nat.succ.injEq] at hk
      have ih' := ih k' hk
      simp only [BTreeRange.contains_key, Bool.and_eq_true] at ih'
      simp only [BTreeRange.contains_key, List.map_cons, boundsMatch, satLower,
        satUpper, Bool.and_eq_true]
      constructor
      · rintro ⟨⟨hab, hl⟩, hba, hu⟩
        have hae : a = b := valueLe_antisymm hab hba
        have hke : k' = v' := ih'.mp ⟨hl, hu⟩
        rw [hae, hke]
      · intro he
        injection he with h1 h2
        subst h1
        subst h2
        rcases ih'.mpr rfl with ⟨hl, hu⟩
        exact ⟨⟨valueLe_refl _, hl⟩, valueLe_refl _, hu⟩

theorem filter_beq_head_of_mem {v : Key} :
    ∀ {l : List Key}, v ∈ l → (l.filter fun k => k == v).head? = some v := by
  intro l hl
  induction l with
  | nil => cases hl
  | cons a tl ih =>
    by_cases h : a = v
    · subst h
      simp [List.filter_cons]
    · rw [List.filter_cons, if_neg (by simp [h])]
      rcases List.mem_cons.mp hl with h' | h'
      · exact absurd h'.symm h
      · exact ih h'

/-! ## Claim C3 -/

/-- C3: for a BTree with a key schema of `n ≥ 1` columns and stored keys of
length `n`, a GET with the default (empty) range returns the collection
itself; with a range whose both bounds are `Inclusive` of the same
full-length vector `v`, it returns the single matching key as a scalar when
`v` is stored and a NotFound error otherwise; and with any other range it
returns a slice view. -/
theorem c3_btree_route_get (keys : List Key) (n : Nat) (hn : 0 < n)
    (hlen : ∀ k ∈ keys, k.length = n) :
    BTree.route_get keys n BTreeRange.default = Except.ok BTreeState.collection ∧
    (∀ v : Key, v.length = n →
      (v ∈ keys →
        BTree.route_get keys n ⟨v.map Bound.inc, v.map Bound.inc⟩ =
          Except.ok (BTreeState.scalar v)) ∧
      (v ∉ keys →
        BTree.route_get keys n ⟨v.map Bound.inc, v.map Bound.inc⟩ =
          Except.error (TCError.not_found "(btree key)"))) ∧
    (∀ r : BTreeRange, r ≠ BTreeRange.default → r.is_key n = false →
      BTree.route_get keys n r = Except.ok (BTreeState.sliceView r false)) := by
  refine ⟨?_, ?_, ?_⟩
  · rw [BTree.route_get, if_pos rfl]
  · intro v hv
    have hvne : v ≠ [] := by
      intro h
      rw [h] at hv
      simp at hv
      omega
    have hrne : (⟨v.map Bound.inc, v.map Bound.inc⟩ : BTreeRange) ≠
        BTreeRange.default := by
      intro h
      have hs : v.map Bound.inc = [] := congrArg BTreeRange.start h
      exact hvne (List.map_eq_nil_iff.mp hs)
    have hkey : (⟨v.map Bound.inc, v.map Bound.inc⟩ : BTreeRange).is_key n =
        true := by
      simp [BTreeRange.is_key, incValues_map_inc, hv]
    have hfilter :
        BTreeFile.stream keys ⟨v.map Bound.inc, v.map Bound.inc⟩ =
          keys.filter fun k => k == v := by
      rw [BTreeFile.stream]
      apply List.filter_congr
      intro k hk
      have hkl : k.length = v.length := by rw [hlen k hk, hv]
      have hiff := contains_key_inc_iff v k hkl
      by_cases he : k = v
      · rw [hiff.mpr he]
        symm
        simp only [beq_iff_eq]
        exact he
      · have hfalse :
            (⟨v.map Bound.inc, v.map Bound.inc⟩ : BTreeRange).contains_key k =
              false := by
          rw [← Bool.not_eq_true]
          exact fun hc => he (hiff.mp hc)
        rw [hfalse]
        symm
        simp only [beq_eq_false_iff_ne, ne_eq]
        exact he
    constructor
    · intro hmem
      rw [BTree.route_get, if_neg hrne, if_pos hkey, hfilter,
        filter_beq_head_of_mem hmem]
    · intro hmem
      have hempty : (keys.filter fun k => k == v) = [] := by
        rw [List.filter_eq_nil_iff]
        intro a ha
        simp only [beq_iff_eq]
        intro he
        exact hmem (he ▸ ha)
      rw [BTree.route_get, if_neg hrne, if_pos hkey, hfilter, hempty]
      rfl
  · intro r hrne hrkey
    rw [BTree.route_get, if_neg hrne, if_neg (by rw [hrkey]; simp)]

theorem c3_btree_route_get_witness :
    (0 < 1 ∧ (∀ k ∈ [[Value.number 1], [Value.number 2]], k.length = 1)) ∧
    BTree.route_get [[Value.number 1], [Value.number 2]] 1 BTreeRange.default =
      Except.ok BTreeState.collection ∧
    BTree.route_get [[Value.number 1], [Value.number 2]] 1
        ⟨[Bound.inc (Value.number 2)], [Bound.inc (Value.number 2)]⟩ =
      Except.ok (BTreeState.scalar [Value.number 2]) ∧
    BTree.route_get [[Value.number 1], [Value.number 2]] 1
        ⟨[Bound.inc (Value.number 3)], [Bound.inc (Value.number 3)]⟩ =
      Except.error (TCError.not_found "(btree key)") ∧
    BTree.route_get [[Value.number 1], [Value.number 2]] 1
        ⟨[Bound.un], [Bound.inc (Value.number 1)]⟩ =
      Except.ok
        (BTreeState.sliceView ⟨[Bound.un], [Bound.inc (Value.number 1)]⟩ false) :=
  ⟨⟨by decide, by decide⟩,
    (c3_btree_route_get [[Value.number 1], [Value.number 2]] 1 (by decide)
        (by decide)).1,
    ((c3_btree_route_get [[Value.number 1], [Value.number 2]] 1 (by decide)
          (by decide)).2.1 [Value.number 2] (by decide)).1 (by decide),
    ((c3_btree_route_get [[Value.number 1], [Value.number 2]] 1 (by decide)
          (by decide)).2.1 [Value.number 3] (by decide)).2 (by decide),
    (c3_btree_route_get [[Value.number 1], [Value.number 2]] 1 (by decide)
        (by decide)).2.2 ⟨[Bound.un], [Bound.inc (Value.number 1)]⟩ (by decide)
      (by decide)⟩
